import Mathlib

/-!
# Verification of the zapi process-cluster coordination layer

Shallow embedding of the core components of the `Zapshark/zapi` repository:

* `OutageDeduper` (src/Core/infra/OutageDeduper.js) — per-resource outage
  coalescing state machine;
* `MessageBus` (src/ws/MessageBus.js) — hybrid local/remote pub-sub;
* `EventServer` (src/Core/events/EventServer.js) — in-process event hub with
  pre-start buffering, wildcard subscriptions and pluggable adapters;
* `RedisEventService` (src/Core/events/RedisEventService.js) — remote
  transport adapter with self-origin filtering;
* `JobQueueServer` (src/server/JobQueueServer.js) — FIFO job engine with
  throttling, statistics and an optional remote-backed list;
* the leader-only heartbeat aggregation of `WorkerServer`
  (src/server/WorkerServer.js).

JavaScript `Map`s are embedded as association lists with `Map.set`
overwrite-in-place semantics; impure quantities (wall-clock timestamps,
random id suffixes) are taken as explicit parameters or omitted when no
verified property depends on them.  Code that throws is embedded with
`Except`; observable side effects (emitter emissions, remote publishes)
are returned as explicit action traces.
-/

namespace Zapi

/-- `Map.set` on an association list: overwrite the first binding of `k`
in place, else append a new binding (JavaScript `Map` insertion order). -/
def mapSet {α : Type} (k : String) (v : α) :
    List (String × α) → List (String × α)
  | [] => [(k, v)]
  | (k', v') :: rest =>
      if k' = k then (k, v) :: rest else (k', v') :: mapSet k v rest

/-! ## OutageDeduper (src/Core/infra/OutageDeduper.js)

`states` is a `Map` from resource key to a record whose only field relevant
to the return values is the boolean `down` (the other fields, `lastAt`,
`lastReason`, `lastUpAt`, `lastUpMeta`, hold wall-clock timestamps and
caller-supplied metadata that no verified property reads). -/

/-- The `states` map, reduced to the `down` flag of each record. -/
abbrev OutageState := List (String × Bool)

/-- `isDown(key)`: `!!states.get(key)?.down`. -/
def isDown (st : OutageState) (key : String) : Bool :=
  (st.lookup key).getD false

/-- `down(key, meta)`: if the (lazily created) record is already down,
return `emitted: false` without touching the map; otherwise mark it down
and return `emitted: true`.  Result is `(new states, emitted)`. -/
def down (st : OutageState) (key : String) : OutageState × Bool :=
  let s := (st.lookup key).getD false
  if s then (st, false)
  else (mapSet key true st, true)

/-- `up(key, meta)`: remember whether the record was down, mark it up,
and return `emitted: wasDown`.  Result is `(new states, emitted)`. -/
def up (st : OutageState) (key : String) : OutageState × Bool :=
  let s := (st.lookup key).getD false
  let wasDown := s
  (mapSet key false st, wasDown)

/-- `n` consecutive `down(key)` calls; returns the final state and the
number of calls that reported `emitted = true`. -/
def downN (st : OutageState) (key : String) : Nat → OutageState × Nat
  | 0 => (st, 0)
  | n + 1 =>
      let r := down st key
      let rest := downN r.1 key n
      (rest.1, (if r.2 then 1 else 0) + rest.2)

theorem lookup_mapSet (k : String) {α : Type} (v : α)
    (m : List (String × α)) : (mapSet k v m).lookup k = some v := by
  induction m with
  | nil => simp [mapSet]
  | cons hd tl ih =>
      by_cases h : hd.1 = k
      · simp [mapSet, h]
      · have hbeq : (k == hd.1) = false :=
          beq_eq_false_iff_ne.mpr (fun hh => h hh.symm)
        simp [mapSet, h, List.lookup, hbeq, ih]

theorem isDown_after_down (st : OutageState) (key : String) :
    isDown (down st key).1 key = true := by
  by_cases h : (st.lookup key).getD false
  · simp [down, h, isDown]
  · simp [down, h, isDown, lookup_mapSet]

theorem isDown_after_up (st : OutageState) (key : String) :
    isDown (up st key).1 key = false := by
  simp [up, isDown, lookup_mapSet]

theorem downN_of_down (st : OutageState) (key : String)
    (h : isDown st key = true) : downN st key n = (st, 0) := by
  induction n with
  | zero => rfl
  | succ n ih =>
      have hd : down st key = (st, false) := by
        simp [down, isDown] at h ⊢
        simp [h]
      simp [downN, hd, ih]

/-- C3: `down(key)` reports `emitted = true` exactly when the key was not
already marked down, `up(key)` reports `emitted = true` exactly when it
was marked down, `down` leaves the key down and `up` leaves it up (so the
claimed consecutive-call behaviour follows), and `n + 1` consecutive
`down` calls report `emitted = true` exactly once when the key starts up
and never when it starts down. -/
theorem outageDeduper_emitted_spec (st : OutageState) (key : String) :
    ((down st key).2 = !(isDown st key))
      ∧ ((up st key).2 = isDown st key)
      ∧ (isDown (down st key).1 key = true)
      ∧ (isDown (up st key).1 key = false)
      ∧ (∀ n : Nat,
          (downN st key (n + 1)).2 = if isDown st key then 0 else 1) := by
  refine ⟨?_, ?_, isDown_after_down st key, isDown_after_up st key, ?_⟩
  · by_cases h : (st.lookup key).getD false
    · simp [down, isDown, h]
    · simp [down, isDown, h]
  · rfl
  · intro n
    by_cases h : isDown st key
    · have hd : down st key = (st, false) := by
        simp [down, isDown] at h ⊢
        simp [h]
      simp [downN, hd, downN_of_down st key h, h]
    · have h' : (st.lookup key).getD false = false := by
        simpa [isDown] using h
      have hd : down st key = (mapSet key true st, true) := by
        simp [down, h']
      have hafter : isDown (mapSet key true st) key = true := by
        simp [isDown, lookup_mapSet]
      simp [downN, hd, downN_of_down _ key hafter, h]

/-! ## MessageBus (src/ws/MessageBus.js)

`publish` mutates nothing; its observable effects are the local emission
and the optional remote publish, returned here as an action trace.  The
JavaScript payload is opaque to the bus and embedded as `Nat`. -/

/-- A JavaScript value passed as `topic`: `null`/`undefined` or a string
(`String(topic || '')` sends every falsy value to `""`). -/
inductive JsStr where
  | null
  | undefined
  | str (s : String)
  deriving Repr, DecidableEq

/-- `String(topic || '').trim()`. -/
def coerceTopic : JsStr → String
  | .null => ""
  | .undefined => ""
  | .str s => s.trim

/-- MessageBus state relevant to `publish`: the channel prefix
(`this.prefix`, renamed since `prefix` is a Lean keyword), whether remote
mirroring is attached (`this._redisAttached`), and whether the publisher
client is usable (`this._pub` non-null, has a `publish` function, and
`status !== 'end'`). -/
structure MBState where
  chanPrefix : String
  redisAttached : Bool
  pubHealthy : Bool
  deriving Repr, DecidableEq

/-- Observable effects of `MessageBus.publish`. -/
inductive MBAction where
  | emitLocal (topic : String) (payload : Nat)
  | remotePub (channel : String) (payload : Nat)
  deriving Repr, DecidableEq

/-- `MessageBus.publish(topic, payload)`: coerce and trim the topic; bail
out if empty; always emit locally; publish to `"<prefix>:<topic>"` when
remote is attached and the publisher client is healthy. -/
def MessageBus.publish (s : MBState) (topic : JsStr) (payload : Nat) :
    List MBAction :=
  let t := coerceTopic topic
  if t = "" then []
  else
    [MBAction.emitLocal t payload]
      ++ (if s.redisAttached && s.pubHealthy then
            [MBAction.remotePub (s.chanPrefix ++ ":" ++ t) payload]
          else [])

/-- C10: whenever the topic coerces and trims to the empty string
(`""`, whitespace-only, `null`, `undefined`), `MessageBus.publish` is a
silent no-op: no local emission and no remote publish, in every
remote-attachment state. -/
theorem messageBus_publish_empty_topic_noop (s : MBState) (topic : JsStr)
    (payload : Nat) (h : coerceTopic topic = "") :
    MessageBus.publish s topic payload = [] := by
  simp [MessageBus.publish, h]

/-- Witness for C10: a `null` topic is dropped even with remote attached
and healthy. -/
theorem messageBus_publish_empty_topic_noop_witness :
    coerceTopic JsStr.null = ""
      ∧ MessageBus.publish ⟨"ws", true, true⟩ JsStr.null 7 = [] :=
  ⟨rfl,
   messageBus_publish_empty_topic_noop ⟨"ws", true, true⟩ JsStr.null 7 rfl⟩

/-! ## EventServer (src/Core/events/EventServer.js)

The envelope's header (`origin`, `ts`, health `state`, `pid`,
`workerIndex`, `role`) is built from ambient process state and wall-clock
time; no verified property reads it, so the embedded envelope keeps the
fields the claims are about: the event name and the payload (opaque,
embedded as `Nat`).  Local emissions and adapter publishes are returned
as an explicit action trace; adapters are identified by `Nat` ids, and
the `Set` of adapters is embedded as the list of its members in insertion
order (how a JavaScript `Set` iterates). -/

structure Envelope where
  event : String
  payload : Nat
  deriving Repr, DecidableEq

structure ESState where
  started : Bool
  buffer : List Envelope
  adapters : List Nat
  deriving Repr, DecidableEq

inductive ESAction where
  | emitLocal (channel : String) (env : Envelope)
  | adapterPublish (adapter : Nat) (env : Envelope)
  deriving Repr, DecidableEq

/-- One envelope's delivery: `local.emit(env.event, env)`,
`local.emit('*', env)`, then `adapter.publish(env)` for every registered
adapter (each awaited, failures swallowed). Shared verbatim by the
started branch of `publish` and the drain loop of `start`. -/
def deliverEnv (ads : List Nat) (env : Envelope) : List ESAction :=
  ESAction.emitLocal env.event env :: ESAction.emitLocal "*" env
    :: ads.map (fun a => ESAction.adapterPublish a env)

/-- `EventServer.publish(event, payload)`: build the envelope; if not
started, push it onto the buffer and return no actions; otherwise deliver
it. -/
def EventServer.publish (s : ESState) (event : String) (payload : Nat) :
    ESState × List ESAction :=
  let env : Envelope := ⟨event, payload⟩
  if s.started then (s, deliverEnv s.adapters env)
  else ({ s with buffer := s.buffer ++ [env] }, [])

/-- `EventServer.start()`: set `_started`, then drain the buffer
(`this._buffer.splice(0)`) in FIFO order, delivering each envelope
exactly as a started publish would. -/
def EventServer.start (s : ESState) : ESState × List ESAction :=
  ({ s with started := true, buffer := [] },
   s.buffer.flatMap (deliverEnv s.adapters))

/-- A sequence of `publish` calls, accumulating the action trace. -/
def publishList (s : ESState) : List (String × Nat) → ESState × List ESAction
  | [] => (s, [])
  | p :: ps =>
      let r := EventServer.publish s p.1 p.2
      let rest := publishList r.1 ps
      (rest.1, r.2 ++ rest.2)

/-- A freshly constructed `EventServer` with the given adapters:
`_started = false`, empty buffer. -/
def ESState.stopped (ads : List Nat) : ESState := ⟨false, [], ads⟩

theorem publishList_stopped (ads : List Nat) (ps : List (String × Nat)) :
    ∀ b : List Envelope,
      publishList ⟨false, b, ads⟩ ps
        = (⟨false, b ++ ps.map (fun p => ⟨p.1, p.2⟩), ads⟩, []) := by
  induction ps with
  | nil => intro b; simp [publishList]
  | cons p ps ih =>
      intro b
      simp [publishList, EventServer.publish, ih (b ++ [⟨p.1, p.2⟩])]

/-- C1: every `publish` before `start()` only buffers its envelope (no
local emission, no adapter publish); `start()` then delivers each
buffered envelope — local emissions plus every registered adapter — in
the original publish order, exactly once each (the drained trace is
precisely the concatenation of the per-envelope deliveries); and any
publish after `start()` delivers immediately without further buffering. -/
theorem eventServer_prestart_buffering (ads : List Nat)
    (ps : List (String × Nat)) :
    (publishList (ESState.stopped ads) ps).2 = []
      ∧ (publishList (ESState.stopped ads) ps).1.buffer
          = ps.map (fun p => ⟨p.1, p.2⟩)
      ∧ (EventServer.start (publishList (ESState.stopped ads) ps).1).2
          = (ps.map fun p => (⟨p.1, p.2⟩ : Envelope)).flatMap (deliverEnv ads)
      ∧ ∀ e pl,
          EventServer.publish
              (EventServer.start (publishList (ESState.stopped ads) ps).1).1
              e pl
            = ((EventServer.start (publishList (ESState.stopped ads) ps).1).1,
               deliverEnv ads ⟨e, pl⟩) := by
  have h := publishList_stopped ads ps []
  refine ⟨?_, ?_, ?_, ?_⟩
  · rw [show (ESState.stopped ads) = (⟨false, [], ads⟩ : ESState) from rfl, h]
  · rw [show (ESState.stopped ads) = (⟨false, [], ads⟩ : ESState) from rfl, h]
    simp
  · rw [show (ESState.stopped ads) = (⟨false, [], ads⟩ : ESState) from rfl, h]
    simp [EventServer.start]
  · intro e pl
    rw [show (ESState.stopped ads) = (⟨false, [], ads⟩ : ESState) from rfl, h]
    simp [EventServer.start, EventServer.publish]

/-! ### `EventServer.subscribe` and local handler dispatch

`subscribe(topic, handler)` wraps the handler in a closure `fn` and
registers `fn` on the internal `EventEmitter`: on channel `'*'` when the
topic is a wildcard (`'*'` or ends in `'*'`), and — unconditionally — on
channel `topic` itself.  A started `publish` emits the envelope first on
channel `env.event`, then on channel `'*'`; the emitter calls, in
registration order, every listener registered on the emitted channel, and
`fn` then decides from the topic and `env.event` whether to invoke the
subscriber's handler. -/

/-- A subscription: the topic string passed to `subscribe` and an
identifier for the wrapped handler. -/
structure Sub where
  topic : String
  hid : Nat
  deriving Repr, DecidableEq

/-- JavaScript `s.endsWith(t)`, over the character lists. -/
def jsEndsWith (s t : String) : Bool := t.data.isSuffixOf s.data

/-- JavaScript `s.startsWith(t)`, over the character lists. -/
def jsStartsWith (s t : String) : Bool := t.data.isPrefixOf s.data

/-- JavaScript `s.slice(0, -1)`: drop the last character. -/
def jsDropLast (s : String) : String := String.mk s.data.dropLast

/-- `isWild` in `subscribe`: `topic === '*' || topic.endsWith('*')`. -/
def isWildTopic (t : String) : Bool := t = "*" || jsEndsWith t "*"

/-- The emitter channels `subscribe(topic, _)` registers `fn` on, in
order: `'*'` first when the topic is a wildcard, then always `topic`. -/
def subscribeChannels (t : String) : List String :=
  (if isWildTopic t then ["*"] else []) ++ [t]

/-- The wrapper `fn`: whether it invokes the subscriber's handler for an
envelope whose event name is `ev`.  Mirrors the cascade in `subscribe`:
`'*'` and `'zapi:*'` match everything; an exact event match fires; a
topic ending in `'*'` fires on a string-prefix match of
`topic.slice(0, -1)`. -/
def fnFires (topic ev : String) : Bool :=
  if topic = "*" || topic = "zapi:*" then true
  else if ev = topic then true
  else if jsEndsWith topic "*" then jsStartsWith ev (jsDropLast topic)
  else false

/-- The emitter's listener list for a list of subscriptions made in
order: one `(channel, subscription)` entry per channel `subscribe`
registered `fn` on. -/
def listenersOf (subs : List Sub) : List (String × Sub) :=
  subs.flatMap (fun sb => (subscribeChannels sb.topic).map (fun c => (c, sb)))

/-- `emit(chan, env)`: every listener entry on channel `chan` runs its
wrapper `fn`; the handlers actually invoked, in order. -/
def emitInvocations (ls : List (String × Sub)) (chan ev : String) :
    List Nat :=
  (ls.filter (fun l => l.1 = chan && fnFires l.2.topic ev)).map
    (fun l => l.2.hid)

/-- Handler invocations caused by one started `publish` of an envelope
with event name `ev`: the emit on channel `ev` followed by the emit on
channel `'*'`. -/
def publishInvocations (ls : List (String × Sub)) (ev : String) : List Nat :=
  emitInvocations ls ev ev ++ emitInvocations ls "*" ev

/-- Counterexample to C4: a handler subscribed to `'*'` is invoked twice,
not once, for a published `"foo"` envelope — `subscribe` registers the
wrapper on the `'*'` channel once because the topic is a wildcard and a
second time because it always also registers on the topic channel, which
for topic `'*'` is the same channel. -/
theorem wildcard_subscribe_double_invocation :
    ¬ ((publishInvocations (listenersOf [⟨"*", 0⟩]) "foo").count 0 = 1) := by
  decide

/-- C4 (amended): a handler subscribed to `'*'` is invoked exactly twice
per published envelope whose event name is not itself `'*'`; a handler
subscribed to a prefix pattern `t` ending in `'*'` (with `t ≠ '*'` and
`t ≠ 'zapi:*'`, the latter being special-cased to match everything) is
invoked exactly once for a published event that starts with the prefix
and zero times otherwise, provided the event name differs from the
literal topic string and from `'*'`. -/
theorem subscribe_dispatch_amended :
    (∀ (hid : Nat) (ev : String), ev ≠ "*" →
        (publishInvocations (listenersOf [⟨"*", hid⟩]) ev).count hid = 2)
      ∧ (∀ (hid : Nat) (t ev : String),
          jsEndsWith t "*" = true → t ≠ "*" → t ≠ "zapi:*" →
          ev ≠ t → ev ≠ "*" →
          (publishInvocations (listenersOf [⟨t, hid⟩]) ev).count hid
            = if jsStartsWith ev (jsDropLast t) then 1 else 0) := by
  constructor
  · intro hid ev hev
    have hne : ¬ ("*" = ev) := fun h => hev h.symm
    simp [publishInvocations, emitInvocations, listenersOf,
      subscribeChannels, isWildTopic, fnFires, List.filter, hne]
  · intro hid t ev hw hstar hzapi hevt hevstar
    have h1 : ¬ ("*" = ev) := fun h => hevstar h.symm
    have h2 : ¬ (t = ev) := fun h => hevt h.symm
    have h3 : isWildTopic t = true := by simp [isWildTopic, hw]
    have h4 : fnFires t ev = jsStartsWith ev (jsDropLast t) := by
      simp [fnFires, hstar, hzapi, hevt, hw]
    by_cases hp : jsStartsWith ev (jsDropLast t)
    · simp [publishInvocations, emitInvocations, listenersOf,
        subscribeChannels, h3, List.filter, h1, h2, h4, hp, hstar]
    · simp [publishInvocations, emitInvocations, listenersOf,
        subscribeChannels, h3, List.filter, h1, h2, h4, hp, hstar]

/-- Witness for C4 (amended): both parts at concrete inputs — a `'*'`
subscription sees event `"foo"` twice; an `"ns:*"` subscription sees
`"ns:foo"` once and `"other"` zero times. -/
theorem subscribe_dispatch_amended_witness :
    (publishInvocations (listenersOf [⟨"*", 0⟩]) "foo").count 0 = 2
      ∧ (publishInvocations (listenersOf [⟨"ns:*", 1⟩]) "ns:foo").count 1 = 1
      ∧ (publishInvocations (listenersOf [⟨"ns:*", 1⟩]) "other").count 1 = 0 := by
  refine ⟨subscribe_dispatch_amended.1 0 "foo" (by decide), ?_, ?_⟩
  · have h := subscribe_dispatch_amended.2 1 "ns:*" "ns:foo"
      (by decide) (by decide) (by decide) (by decide) (by decide)
    rw [h]
    decide
  · have h := subscribe_dispatch_amended.2 1 "ns:*" "other"
      (by decide) (by decide) (by decide) (by decide) (by decide)
    rw [h]
    decide

/-! ## RedisEventService (src/Core/events/RedisEventService.js)

The `pmessage` subscriber handler: parse the received message as an
Envelope (a throwing `JSON.parse` is swallowed by the surrounding
`try`/`catch`, embedded as `none`); drop it when the header's
`(pid, workerIndex, origin)` triple strictly equals this process's
identity; otherwise re-emit it on the message's channel and on the `'*'`
channel of the EventServer's local emitter.  JavaScript `===` against a
possibly-missing field is embedded as equality with `some _`. -/

/-- Fields of a received envelope that the handler reads:
`eventHeader.state.meta.pid`, `eventHeader.state.meta.workerIndex`
(both defaulting to missing via `|| {}`), and `eventHeader.origin`. -/
structure RemoteEnv where
  origin : Option String
  metaPid : Option Int
  metaWorkerIndex : Option Int
  deriving Repr, DecidableEq

/-- This process's identity: `process.pid`,
`Number(process.env.WORKER_INDEX ?? -1)`, `getServerName()`. -/
structure SelfId where
  pid : Int
  workerIndex : Int
  origin : String
  deriving Repr, DecidableEq

/-- Local re-emissions performed by the `pmessage` handler. -/
inductive REAction where
  | emitLocal (channel : String) (env : RemoteEnv)
  deriving Repr, DecidableEq

/-- The `pmessage` handler: `none` models a message whose `JSON.parse`
threw (swallowed, nothing emitted). -/
def onPMessage (self : SelfId) (channel : String) (msg : Option RemoteEnv) :
    List REAction :=
  match msg with
  | none => []
  | some env =>
      if env.metaPid = some self.pid
          ∧ env.metaWorkerIndex = some self.workerIndex
          ∧ env.origin = some self.origin then []
      else [REAction.emitLocal channel env, REAction.emitLocal "*" env]

/-- C6: a received envelope whose `(pid, workerIndex, origin)` triple
fully matches this process's identity is never re-emitted locally; an
envelope whose triple does not fully match (including any missing field)
is re-emitted on its channel and on the `'*'` channel. -/
theorem redis_no_self_echo (self : SelfId) (channel : String)
    (env : RemoteEnv) :
    (env.metaPid = some self.pid →
        env.metaWorkerIndex = some self.workerIndex →
        env.origin = some self.origin →
        onPMessage self channel (some env) = [])
      ∧ (¬ (env.metaPid = some self.pid
            ∧ env.metaWorkerIndex = some self.workerIndex
            ∧ env.origin = some self.origin) →
          onPMessage self channel (some env)
            = [REAction.emitLocal channel env, REAction.emitLocal "*" env]) := by
  constructor
  · intro h1 h2 h3
    simp [onPMessage, h1, h2, h3]
  · intro h
    simp [onPMessage, h]

/-- Witness for C6: a self-originated envelope is dropped; flipping just
the worker index makes it re-emit on both channels. -/
theorem redis_no_self_echo_witness :
    onPMessage ⟨41, 0, "zapiAppServer"⟩ "zapi:x"
        (some ⟨some "zapiAppServer", some 41, some 0⟩) = []
      ∧ onPMessage ⟨41, 0, "zapiAppServer"⟩ "zapi:x"
          (some ⟨some "zapiAppServer", some 41, some 2⟩)
        = [REAction.emitLocal "zapi:x" ⟨some "zapiAppServer", some 41, some 2⟩,
           REAction.emitLocal "*" ⟨some "zapiAppServer", some 41, some 2⟩] := by
  constructor
  · exact (redis_no_self_echo ⟨41, 0, "zapiAppServer"⟩ "zapi:x"
      ⟨some "zapiAppServer", some 41, some 0⟩).1 rfl rfl rfl
  · exact (redis_no_self_echo ⟨41, 0, "zapiAppServer"⟩ "zapi:x"
      ⟨some "zapiAppServer", some 41, some 2⟩).2 (by decide)

/-! ## JobQueueServer (src/server/JobQueueServer.js)

The payload and the job results are opaque to the engine and embedded as
`Nat`.  A job definition's `middleware` and `execute` are arbitrary
application code that may throw, embedded as `Except`-valued functions
(`ctx` is opaque to the engine's control flow and omitted).  The remote
list `"jobq:_all"` lives in the external store; it is embedded as part of
the state, with `redis = some lst` modelling a non-null `this.redis`
holding list contents `lst`, and `redis = none` the memory-only mode.
`Date.now()` timestamps and the random id suffix are impure: the
generated id is taken as an explicit parameter, and the wall-clock
throttle duration added to `throttledMsTotal` by `_throttleEnd` is not
modelled (no verified property reads it). -/

structure Job where
  id : String
  name : String
  payload : Nat
  deriving Repr, DecidableEq

structure JobDef where
  middleware : Option (Nat → Except String Nat)
  execute : Nat → Except String Nat

structure JQState where
  jobs : List (String × JobDef)
  queue : List Job
  redis : Option (List Job)
  throttlecount : Nat
  throttleActive : Bool
  throttleEvents : Nat
  throttledMsTotal : Nat
  totalJobs : Nat
  perRoute : List (String × Nat)
  concurrency : Nat
  running : Bool

/-- `_throttleBegin()`: set the flag and count a throttle event (the
start timestamp is wall-clock). -/
def throttleBegin (s : JQState) : JQState :=
  { s with throttleActive := true, throttleEvents := s.throttleEvents + 1 }

/-- `_throttleEnd()`: clear the flag; the wall-clock duration added to
`throttledMsTotal` is not modelled. -/
def throttleEnd (s : JQState) : JQState :=
  { s with throttleActive := false }

/-- `_maybeThrottle()`: a no-op when remote-backed; otherwise begin
throttling when the queue length has reached `throttlecount` and the
flag is off, then end it when the length is below `throttlecount` and the
flag is on (two sequential `if`s, the second reading the updated flag). -/
def maybeThrottle (s : JQState) : JQState :=
  if s.redis.isSome then s
  else
    let n := s.queue.length
    let s1 :=
      if !s.throttleActive && decide (n ≥ s.throttlecount) then
        throttleBegin s
      else s
    if s1.throttleActive && decide (n < s1.throttlecount) then
      throttleEnd s1
    else s1

/-- `registerJob(name, def)`: throw on a falsy name or a non-callable
`execute` (the latter is excluded by typing here); overwriting an
existing name is allowed (logged as a warning). -/
def registerJob (s : JQState) (name : String) (d : JobDef) :
    Except String JQState :=
  if name = "" then Except.error "Invalid job definition"
  else Except.ok { s with jobs := mapSet name d s.jobs }

/-- `enqueue(name, payload)`: throw when the name has no registered
definition; otherwise build the JobRecord (`newId` models
`Date.now()-random`).  With a remote list, `rpush` onto its tail
(`pushOk` models whether the push threw); on failure fall back to the
in-memory queue and call `_maybeThrottle`.  Without a remote list, push
to the in-memory queue and call `_maybeThrottle`.  Returns the job id. -/
def enqueue (s : JQState) (name : String) (payload : Nat) (newId : String)
    (pushOk : Bool) : Except String (String × JQState) :=
  if (s.jobs.lookup name).isNone then
    Except.error ("Job \x22" ++ name ++ "\x22 is not registered")
  else
    let job : Job := ⟨newId, name, payload⟩
    match s.redis with
    | some lst =>
        if pushOk then
          Except.ok (job.id, { s with redis := some (lst ++ [job]) })
        else
          Except.ok (job.id, maybeThrottle { s with queue := s.queue ++ [job] })
    | none =>
        Except.ok (job.id, maybeThrottle { s with queue := s.queue ++ [job] })

/-- Outcome of one `_pump` iteration. -/
inductive PumpOutcome where
  | idle
  | success (name : String)
  | failure (name : String)
  deriving Repr, DecidableEq

/-- `perRoute.set(name, (perRoute.get(name) || 0) + 1)`. -/
def bumpRoute (name : String) (pr : List (String × Nat)) :
    List (String × Nat) :=
  mapSet name ((pr.lookup name).getD 0 + 1) pr

/-- The body of `_pump` from a popped job onward: resolve the definition
(a missing one throws `Unknown job`), run `middleware` (when present)
then `execute`; on success increment `totalJobs` and the job's per-route
counter; any thrown error is caught, logged and the loop continues.  The
optional completion broadcast does not touch the queue state. -/
def runJob (s : JQState) (job : Job) : JQState × PumpOutcome :=
  match s.jobs.lookup job.name with
  | none => (s, PumpOutcome.failure job.name)
  | some d =>
      let mwRes : Except String Nat :=
        match d.middleware with
        | some mw => mw job.payload
        | none => Except.ok job.payload
      match mwRes with
      | Except.error _ => (s, PumpOutcome.failure job.name)
      | Except.ok payload =>
          match d.execute payload with
          | Except.error _ => (s, PumpOutcome.failure job.name)
          | Except.ok _ =>
              ({ s with
                  totalJobs := s.totalJobs + 1,
                  perRoute := bumpRoute job.name s.perRoute },
               PumpOutcome.success job.name)

/-- One iteration of the `_pump` loop: `blpop` the head of the remote
list when remote-backed, else `shift` the in-memory queue; an empty
backing store just sleeps (`idle`). -/
def pumpStep (s : JQState) : JQState × PumpOutcome :=
  match s.redis with
  | some [] => (s, PumpOutcome.idle)
  | some (job :: rest) => runJob { s with redis := some rest } job
  | none =>
      match s.queue with
      | [] => (s, PumpOutcome.idle)
      | job :: rest => runJob { s with queue := rest } job

structure JQStats where
  totalJobs : Nat
  perRoute : List (String × Nat)
  throttleEvents : Nat
  throttledMsTotal : Nat
  queueLength : Option Nat
  concurrency : Nat
  throttleActive : Bool
  deriving Repr, DecidableEq

/-- `getStats()`. -/
def getStats (s : JQState) : JQStats :=
  { totalJobs := s.totalJobs,
    perRoute := s.perRoute,
    throttleEvents := s.throttleEvents,
    throttledMsTotal := s.throttledMsTotal,
    queueLength := if s.redis.isSome then none else some s.queue.length,
    concurrency := s.concurrency,
    throttleActive := s.throttleActive }

/-- C8: `enqueue` of an unregistered job name throws synchronously (the
registration check precedes every mutation in the source), so the caller
keeps the unchanged state: queue, remote list, throttle state and all
statistics counters are untouched. -/
theorem enqueue_unregistered_throws (s : JQState) (name : String)
    (payload : Nat) (newId : String) (pushOk : Bool)
    (h : s.jobs.lookup name = none) :
    enqueue s name payload newId pushOk
      = Except.error ("Job \x22" ++ name ++ "\x22 is not registered") := by
  simp [enqueue, h]

/-- A server with no registered jobs and default options. -/
def jqEmpty : JQState :=
  { jobs := [], queue := [], redis := none, throttlecount := 100,
    throttleActive := false, throttleEvents := 0, throttledMsTotal := 0,
    totalJobs := 0, perRoute := [], concurrency := 1, running := false }

/-- Witness for C8: enqueueing an unregistered name on a fresh server
throws. -/
theorem enqueue_unregistered_throws_witness :
    enqueue jqEmpty "Email:Send" 0 "id1" true
      = Except.error ("Job \x22Email:Send\x22 is not registered") :=
  enqueue_unregistered_throws jqEmpty "Email:Send" 0 "id1" true rfl

/-! ### Throttling (C2) -/

theorem maybeThrottle_active (s : JQState) (h : s.redis = none) :
    (maybeThrottle s).throttleActive
      = decide (s.queue.length ≥ s.throttlecount) := by
  by_cases ha : s.throttleActive
  · by_cases hn : s.queue.length ≥ s.throttlecount
    · simp [maybeThrottle, h, ha, hn, throttleBegin, throttleEnd, Nat.not_lt.mpr hn]
    · simp [maybeThrottle, h, ha, hn, throttleBegin, throttleEnd,
        Nat.lt_of_not_le hn]
  · by_cases hn : s.queue.length ≥ s.throttlecount
    · simp [maybeThrottle, h, ha, hn, throttleBegin, throttleEnd, Nat.not_lt.mpr hn]
    · simp [maybeThrottle, h, ha, hn, throttleBegin, throttleEnd]

theorem runJob_throttleActive (s : JQState) (j : Job) :
    (runJob s j).1.throttleActive = s.throttleActive := by
  unfold runJob
  cases hlk : s.jobs.lookup j.name with
  | none => rfl
  | some d =>
      cases hmw : (match d.middleware with
        | some mw => mw j.payload
        | none => Except.ok j.payload) with
      | error e => simp [hmw]
      | ok p =>
          cases hex : d.execute p with
          | error e => simp [hmw, hex]
          | ok r => simp [hmw, hex]

theorem pumpStep_throttleActive (s : JQState) :
    (pumpStep s).1.throttleActive = s.throttleActive := by
  unfold pumpStep
  cases hr : s.redis with
  | some lst =>
      cases lst with
      | nil => rfl
      | cons j rest => exact runJob_throttleActive _ j
  | none =>
      cases hq : s.queue with
      | nil => rfl
      | cons j rest => exact runJob_throttleActive _ j

/-! The concrete C2 scenario: `throttleCount = 3`, four in-memory jobs
enqueued, then three consumed by the pump. -/

/-- Scenario glue: run `enqueue` and keep the resulting state (all the
scenario's names are registered, so the throwing branch is not taken). -/
def enqueueD (s : JQState) (name : String) (payload : Nat)
    (newId : String) : JQState :=
  match enqueue s name payload newId true with
  | Except.ok r => r.2
  | Except.error _ => s

/-- Scenario glue: `n` pump iterations. -/
def pumpN (s : JQState) : Nat → JQState
  | 0 => s
  | n + 1 => pumpN (pumpStep s).1 n

/-- A job definition that always succeeds. -/
def okDef : JobDef := ⟨none, fun p => Except.ok p⟩

/-- `throttleCount = 3`, one registered job `"j"`, memory mode. -/
def c2Init : JQState :=
  { jobs := [("j", okDef)], queue := [], redis := none, throttlecount := 3,
    throttleActive := false, throttleEvents := 0, throttledMsTotal := 0,
    totalJobs := 0, perRoute := [], concurrency := 1, running := true }

/-- Four jobs enqueued while none have been consumed. -/
def c2AfterEnqueue : JQState :=
  enqueueD (enqueueD (enqueueD (enqueueD c2Init "j" 0 "1") "j" 0 "2")
    "j" 0 "3") "j" 0 "4"

/-- …then three jobs consumed by the pump. -/
def c2Final : JQState := pumpN c2AfterEnqueue 3

/-- Counterexample to C2: enqueueing four jobs with `throttleCount = 3`
turns throttling on, and after the pump has consumed three of them
(three successes, queue length back to 1 < 3) `getStats().throttleActive`
is still `true` — the pump never re-evaluates throttle state; only
`enqueue` (and `stop()`) do. -/
theorem throttle_not_cleared_by_pump_counterexample :
    (getStats c2AfterEnqueue).throttleActive = true
      ∧ c2Final.totalJobs = 3
      ∧ c2Final.queue.length = 1
      ∧ ¬ ((getStats c2Final).throttleActive = false) := by
  refine ⟨rfl, rfl, rfl, ?_⟩
  decide

/-- C2 (amended): in-memory throttling is level-triggered but re-evaluated
only by `enqueue`: after any in-memory enqueue, `throttleActive` equals
"queue length ≥ throttlecount"; a pump iteration never changes
`throttleActive`; so in the concrete scenario the flag is still on after
three jobs are consumed, and turns off on the next enqueue (which finds
the queue below the threshold). -/
theorem throttle_level_triggered_on_enqueue :
    (∀ (s : JQState) (name : String) (payload : Nat) (newId : String)
        (pushOk : Bool) (id : String) (s' : JQState),
        s.redis = none →
        enqueue s name payload newId pushOk = Except.ok (id, s') →
        s'.throttleActive = decide (s.queue.length + 1 ≥ s.throttlecount))
      ∧ (∀ s : JQState, (pumpStep s).1.throttleActive = s.throttleActive)
      ∧ (getStats (enqueueD c2Final "j" 0 "5")).throttleActive = false := by
  refine ⟨?_, pumpStep_throttleActive, by decide⟩
  intro s name payload newId pushOk id s' hr hok
  by_cases hlk : (s.jobs.lookup name).isNone
  · simp [enqueue, hlk] at hok
  · simp [enqueue, hlk, hr] at hok
    have hthr := maybeThrottle_active
      { s with queue := s.queue ++ [⟨newId, name, payload⟩], redis := none } rfl
    rw [← hok.2, hthr]
    simp

/-- Witness for C2 (amended): the first enqueue on the concrete scenario
server leaves throttling off (1 < 3). -/
theorem throttle_level_triggered_on_enqueue_witness :
    (enqueueD c2Init "j" 0 "1").throttleActive
      = decide (c2Init.queue.length + 1 ≥ c2Init.throttlecount) :=
  throttle_level_triggered_on_enqueue.1 c2Init "j" 0 "1" true "1"
    (enqueueD c2Init "j" 0 "1") rfl rfl

/-! ### Remote-backed enqueue (C5) -/

/-- C5: with a remote list configured, enqueue of a registered name
returns the generated id and pushes the serialized record onto the tail
of `"jobq:_all"`; when the push throws, the same record is instead
appended to the in-memory queue and `_maybeThrottle` runs (a no-op while
`this.redis` is set, so throttle state is unchanged); in both cases
exactly one copy of the job lands in exactly one of the two backing
stores. -/
theorem enqueue_remote_fallback (s : JQState) (name : String)
    (payload : Nat) (newId : String) (pushOk : Bool) (lst : List Job)
    (d : JobDef) (hr : s.redis = some lst)
    (hreg : s.jobs.lookup name = some d) :
    ∃ s', enqueue s name payload newId pushOk = Except.ok (newId, s')
      ∧ (pushOk = true →
          s'.redis = some (lst ++ [⟨newId, name, payload⟩])
            ∧ s'.queue = s.queue
            ∧ s'.throttleActive = s.throttleActive
            ∧ s'.throttleEvents = s.throttleEvents)
      ∧ (pushOk = false →
          s'.queue = s.queue ++ [⟨newId, name, payload⟩]
            ∧ s'.redis = some lst
            ∧ s'.throttleActive = s.throttleActive
            ∧ s'.throttleEvents = s.throttleEvents)
      ∧ s'.queue.length + (s'.redis.getD []).length
          = s.queue.length + lst.length + 1 := by
  have hlk : (s.jobs.lookup name).isNone = false := by simp [hreg]
  cases pushOk with
  | true =>
      refine ⟨{ s with redis := some (lst ++ [⟨newId, name, payload⟩]) },
        ?_, ?_, ?_, ?_⟩
      · simp [enqueue, hlk, hr]
      · intro _; simp
      · intro h; cases h
      · simp [Nat.add_assoc]
  | false =>
      have hmt : maybeThrottle
          { s with
              queue := s.queue ++ [⟨newId, name, payload⟩],
              redis := some lst }
          = { s with
                queue := s.queue ++ [⟨newId, name, payload⟩],
                redis := some lst } := by
        simp [maybeThrottle]
      refine ⟨{ s with
                  queue := s.queue ++ [⟨newId, name, payload⟩],
                  redis := some lst }, ?_, ?_, ?_, ?_⟩
      · simp [enqueue, hlk, hr, hmt]
      · intro h; cases h
      · intro _; simp
      · simp [Nat.add_comm, Nat.add_assoc, Nat.add_left_comm]

/-- A remote-backed server with one registered job, for the C5 witness. -/
def c5Server : JQState := { jqEmpty with jobs := [("j", okDef)], redis := some [] }

/-- Witness for C5: on a remote-backed server whose push throws, the job
falls back to the in-memory queue and the id is still returned. -/
theorem enqueue_remote_fallback_witness :
    ∃ s', enqueue c5Server "j" 5 "id7" false = Except.ok ("id7", s')
      ∧ (false = true →
          s'.redis = some ([] ++ [⟨"id7", "j", 5⟩])
            ∧ s'.queue = c5Server.queue
            ∧ s'.throttleActive = c5Server.throttleActive
            ∧ s'.throttleEvents = c5Server.throttleEvents)
      ∧ (false = false →
          s'.queue = c5Server.queue ++ [⟨"id7", "j", 5⟩]
            ∧ s'.redis = some []
            ∧ s'.throttleActive = c5Server.throttleActive
            ∧ s'.throttleEvents = c5Server.throttleEvents)
      ∧ s'.queue.length + (s'.redis.getD []).length
          = c5Server.queue.length + ([] : List Job).length + 1 :=
  enqueue_remote_fallback c5Server "j" 5 "id7" false [] okDef rfl rfl

/-! ### Statistics invariant (C9) -/

/-- The sum of the per-route counters. -/
def sumPerRoute (pr : List (String × Nat)) : Nat := (pr.map Prod.snd).sum

theorem sumPerRoute_bumpRoute (name : String) (pr : List (String × Nat)) :
    sumPerRoute (bumpRoute name pr) = sumPerRoute pr + 1 := by
  induction pr with
  | nil => simp [bumpRoute, mapSet, sumPerRoute]
  | cons hd tl ih =>
      by_cases h : hd.1 = name
      · have hbeq : (name == hd.1) = true := beq_iff_eq.mpr h.symm
        simp [bumpRoute, mapSet, h, List.lookup, hbeq, sumPerRoute,
          Nat.add_comm, Nat.add_assoc, Nat.add_left_comm]
      · have hbeq : (name == hd.1) = false :=
          beq_eq_false_iff_ne.mpr (fun hh => h hh.symm)
        have ih' := ih
        simp [bumpRoute, mapSet, h, List.lookup, hbeq, sumPerRoute] at ih' ⊢
        omega

/-- Exact shape of one job execution: either the success update or an
unchanged state with a failure outcome. -/
theorem runJob_spec (s : JQState) (j : Job) :
    runJob s j
        = ({ s with
               totalJobs := s.totalJobs + 1,
               perRoute := bumpRoute j.name s.perRoute },
           PumpOutcome.success j.name)
      ∨ runJob s j = (s, PumpOutcome.failure j.name) := by
  unfold runJob
  cases hlk : s.jobs.lookup j.name with
  | none => exact Or.inr rfl
  | some d =>
      cases hmw : (match d.middleware with
        | some mw => mw j.payload
        | none => Except.ok j.payload) with
      | error e => exact Or.inr (by simp [hmw])
      | ok p =>
          cases hex : d.execute p with
          | error e => exact Or.inr (by simp [hmw, hex])
          | ok r => exact Or.inl (by simp [hmw, hex])

theorem pumpStep_spec (s : JQState) :
    ((pumpStep s).1.totalJobs = s.totalJobs + 1
        ∧ sumPerRoute (pumpStep s).1.perRoute = sumPerRoute s.perRoute + 1
        ∧ (∃ n, (pumpStep s).2 = PumpOutcome.success n))
      ∨ ((pumpStep s).1.totalJobs = s.totalJobs
          ∧ (pumpStep s).1.perRoute = s.perRoute
          ∧ ∀ n, (pumpStep s).2 ≠ PumpOutcome.success n) := by
  cases hr : s.redis with
  | some lst =>
      cases lst with
      | nil =>
          have hps : pumpStep s = (s, PumpOutcome.idle) := by
            unfold pumpStep; rw [hr]
          rw [hps]
          exact Or.inr ⟨rfl, rfl, by simp⟩
      | cons j rest =>
          have hps : pumpStep s = runJob { s with redis := some rest } j := by
            unfold pumpStep; rw [hr]
          rw [hps]
          rcases runJob_spec { s with redis := some rest } j with h | h
          · rw [h]
            exact Or.inl ⟨rfl, sumPerRoute_bumpRoute _ _, ⟨j.name, rfl⟩⟩
          · rw [h]
            exact Or.inr ⟨rfl, rfl, by simp⟩
  | none =>
      cases hq : s.queue with
      | nil =>
          have hps : pumpStep s = (s, PumpOutcome.idle) := by
            unfold pumpStep; rw [hr, hq]
          rw [hps]
          exact Or.inr ⟨rfl, rfl, by simp⟩
      | cons j rest =>
          have hps : pumpStep s
              = runJob { s with queue := rest, redis := none } j := by
            unfold pumpStep; rw [hr, hq]
          rw [hps]
          rcases runJob_spec { s with queue := rest, redis := none } j
            with h | h
          · rw [h]
            exact Or.inl ⟨rfl, sumPerRoute_bumpRoute _ _, ⟨j.name, rfl⟩⟩
          · rw [h]
            exact Or.inr ⟨rfl, rfl, by simp⟩

theorem maybeThrottle_stats (s : JQState) :
    (maybeThrottle s).totalJobs = s.totalJobs
      ∧ (maybeThrottle s).perRoute = s.perRoute := by
  by_cases h0 : s.redis.isSome
  · simp [maybeThrottle, h0]
  · by_cases ha : s.throttleActive
    · by_cases hn : s.queue.length ≥ s.throttlecount
      · simp [maybeThrottle, h0, ha, hn, throttleBegin, throttleEnd,
          Nat.not_lt.mpr hn]
      · simp [maybeThrottle, h0, ha, hn, throttleBegin, throttleEnd,
          Nat.lt_of_not_le hn]
    · by_cases hn : s.queue.length ≥ s.throttlecount
      · simp [maybeThrottle, h0, ha, hn, throttleBegin, throttleEnd,
          Nat.not_lt.mpr hn]
      · simp [maybeThrottle, h0, ha, hn, throttleBegin, throttleEnd]

/-- The operations reachable states are closed under (stats-affecting
lifecycle steps; `getStats`, `listJobs` are pure reads). -/
inductive JQOp where
  | register (name : String) (d : JobDef)
  | enq (name : String) (payload : Nat) (newId : String) (pushOk : Bool)
  | pump

/-- Apply one operation; a thrown `registerJob`/`enqueue` leaves the
caller's state unchanged. -/
def applyOp (s : JQState) : JQOp → JQState
  | JQOp.register n d =>
      match registerJob s n d with
      | Except.ok s' => s'
      | Except.error _ => s
  | JQOp.enq n p newId po =>
      match enqueue s n p newId po with
      | Except.ok r => r.2
      | Except.error _ => s
  | JQOp.pump => (pumpStep s).1

def applyOps (s : JQState) (ops : List JQOp) : JQState :=
  ops.foldl applyOp s

/-- A freshly initialised server: zero counters, empty in-memory queue;
the remote list (when configured) may already hold records enqueued by
other workers. -/
def jqInit (r0 : Option (List Job)) (tc cc : Nat) : JQState :=
  { jobs := [], queue := [], redis := r0, throttlecount := tc,
    throttleActive := false, throttleEvents := 0, throttledMsTotal := 0,
    totalJobs := 0, perRoute := [], concurrency := cc, running := true }

theorem enqueue_stats (s : JQState) (n : String) (p : Nat) (newId : String)
    (po : Bool) (r : String × JQState)
    (hq : enqueue s n p newId po = Except.ok r) :
    r.2.totalJobs = s.totalJobs ∧ r.2.perRoute = s.perRoute := by
  by_cases hlk : (s.jobs.lookup n).isNone
  · simp [enqueue, hlk] at hq
  · cases hr : s.redis with
    | some lst =>
        cases po with
        | true =>
            simp [enqueue, hlk, hr] at hq
            subst hq
            exact ⟨rfl, rfl⟩
        | false =>
            simp [enqueue, hlk, hr] at hq
            subst hq
            exact ⟨(maybeThrottle_stats _).1, (maybeThrottle_stats _).2⟩
    | none =>
        simp [enqueue, hlk, hr] at hq
        subst hq
        exact ⟨(maybeThrottle_stats _).1, (maybeThrottle_stats _).2⟩

theorem applyOp_statsInv (s : JQState) (op : JQOp)
    (h : s.totalJobs = sumPerRoute s.perRoute) :
    (applyOp s op).totalJobs = sumPerRoute (applyOp s op).perRoute := by
  cases op with
  | register n d =>
      by_cases hn : n = ""
      · simp [applyOp, registerJob, hn, h]
      · simp [applyOp, registerJob, hn, h]
  | enq n p newId po =>
      simp only [applyOp]
      cases hq : enqueue s n p newId po with
      | error e => exact h
      | ok r =>
          rcases enqueue_stats s n p newId po r hq with ⟨h1, h2⟩
          rw [h1, h2]
          exact h
  | pump =>
      rcases pumpStep_spec s with ⟨h1, h2, _⟩ | ⟨h1, h2, _⟩
      · simp [applyOp, h1, h2, h]
      · simp [applyOp, h1, h2, h]

/-- C9: in every reachable state, `getStats().totalJobs` equals the sum
of the per-name counts in `getStats().perRoute`; a pump iteration that
executes a job successfully increments both by exactly one, and an
iteration whose job fails (middleware or execute throws, or the
definition is missing) changes neither counter. -/
theorem jobqueue_stats_invariant :
    (∀ (r0 : Option (List Job)) (tc cc : Nat) (ops : List JQOp),
        (getStats (applyOps (jqInit r0 tc cc) ops)).totalJobs
          = sumPerRoute (getStats (applyOps (jqInit r0 tc cc) ops)).perRoute)
      ∧ (∀ (s : JQState) (n : String),
          (pumpStep s).2 = PumpOutcome.success n →
          (pumpStep s).1.totalJobs = s.totalJobs + 1
            ∧ sumPerRoute (pumpStep s).1.perRoute
              = sumPerRoute s.perRoute + 1)
      ∧ (∀ (s : JQState) (n : String),
          (pumpStep s).2 = PumpOutcome.failure n →
          (pumpStep s).1.totalJobs = s.totalJobs
            ∧ (pumpStep s).1.perRoute = s.perRoute) := by
  refine ⟨?_, ?_, ?_⟩
  · intro r0 tc cc ops
    suffices hgen : ∀ (s : JQState),
        s.totalJobs = sumPerRoute s.perRoute →
        (applyOps s ops).totalJobs = sumPerRoute (applyOps s ops).perRoute by
      exact hgen (jqInit r0 tc cc) (by simp [jqInit, sumPerRoute])
    induction ops with
    | nil => intro s h; exact h
    | cons op ops ih =>
        intro s h
        exact ih (applyOp s op) (applyOp_statsInv s op h)
  · intro s n hsucc
    rcases pumpStep_spec s with ⟨h1, h2, _⟩ | ⟨_, _, h3⟩
    · exact ⟨h1, h2⟩
    · exact absurd hsucc (h3 n)
  · intro s n hfail
    rcases pumpStep_spec s with ⟨_, _, m, hm⟩ | ⟨h1, h2, _⟩
    · rw [hfail] at hm; cases hm
    · exact ⟨h1, h2⟩

/-- A job definition whose `execute` always throws. -/
def failDef : JobDef := ⟨none, fun _ => Except.error "boom"⟩

/-- A server holding one pending job whose definition succeeds. -/
def c9Ok : JQState := { jqEmpty with jobs := [("j", okDef)], queue := [⟨"a", "j", 1⟩] }

/-- A server holding one pending job whose definition throws. -/
def c9Fail : JQState := { jqEmpty with jobs := [("j", failDef)], queue := [⟨"a", "j", 1⟩] }

/-- Witness for C9: a concrete run (register, one enqueue, one pump)
satisfies the invariant; a successful pump iteration bumps both counters;
a failing one changes neither. -/
theorem jobqueue_stats_invariant_witness :
    (getStats (applyOps (jqInit none 100 1)
        [JQOp.register "j" okDef, JQOp.enq "j" 1 "a" true,
         JQOp.pump])).totalJobs
      = sumPerRoute (getStats (applyOps (jqInit none 100 1)
          [JQOp.register "j" okDef, JQOp.enq "j" 1 "a" true,
           JQOp.pump])).perRoute
    ∧ ((pumpStep c9Ok).1.totalJobs = c9Ok.totalJobs + 1
        ∧ sumPerRoute (pumpStep c9Ok).1.perRoute
          = sumPerRoute c9Ok.perRoute + 1)
    ∧ ((pumpStep c9Fail).1.totalJobs = c9Fail.totalJobs
        ∧ (pumpStep c9Fail).1.perRoute = c9Fail.perRoute) :=
  ⟨jobqueue_stats_invariant.1 none 100 1
      [JQOp.register "j" okDef, JQOp.enq "j" 1 "a" true, JQOp.pump],
   jobqueue_stats_invariant.2.1 c9Ok "j" rfl,
   jobqueue_stats_invariant.2.2 c9Fail "j" rfl⟩

/-! ## Heartbeat aggregation (src/server/WorkerServer.js, leader only)

`hbState` is a `Map` keyed by `` `${nodeId}|${pid}` `` whose entries are
simply overwritten per incoming sample (`onWorkerHeartbeat`); on a fixed
interval the leader computes min/avg/max over the current sample set and
publishes one snapshot.  Wall-clock fields (`ts`) and the optional
`workers` detail array are not modelled; numeric stats are modelled over
`Nat` with `Math.round(x)` as exact rational round-half-up. -/

structure HbSample where
  nodeId : String
  pid : Int
  workerIndex : Int
  uptimeSec : Nat
  rss : Nat
  heapUsed : Nat
  deriving Repr, DecidableEq

/-- `` `${evt.nodeId}|${evt.pid}` ``. -/
def hbKey (e : HbSample) : String := e.nodeId ++ "|" ++ toString e.pid

/-- `onWorkerHeartbeat(evt)`: last-write-wins overwrite of the sample
keyed by `(nodeId, pid)`; entries are never evicted. -/
def onWorkerHeartbeat (m : List (String × HbSample)) (e : HbSample) :
    List (String × HbSample) :=
  mapSet (hbKey e) e m

/-- `a.length ? Math.min(...a) : 0`. -/
def jsMin : List Nat → Nat
  | [] => 0
  | x :: xs => xs.foldl Nat.min x

/-- `a.length ? Math.max(...a) : 0`. -/
def jsMax : List Nat → Nat
  | [] => 0
  | x :: xs => xs.foldl Nat.max x

/-- `a.length ? Math.round(sum / a.length) : 0` (round-half-up). -/
def jsAvg (l : List Nat) : Nat :=
  if l.length = 0 then 0 else (2 * l.sum + l.length) / (2 * l.length)

structure MinAvgMax where
  min : Nat
  avg : Nat
  max : Nat
  deriving Repr, DecidableEq

def minAvgMax (l : List Nat) : MinAvgMax := ⟨jsMin l, jsAvg l, jsMax l⟩

structure HbSnapshot where
  expectedTotal : Nat
  observedTotal : Nat
  uptimeSec : MinAvgMax
  rss : MinAvgMax
  heapUsed : MinAvgMax
  deriving Repr, DecidableEq

/-- One tick of the leader's snapshot interval:
`expected.total = Math.max(1, Number(cfg.express?.workers || 1))`,
`observed.total = Array.from(hbState.values()).length`, and min/avg/max
of each tracked measure over the current sample set. -/
def hbSnapshot (cfgWorkers : Nat) (m : List (String × HbSample)) :
    HbSnapshot :=
  let workersArr := m.map Prod.snd
  { expectedTotal := Nat.max 1 cfgWorkers,
    observedTotal := workersArr.length,
    uptimeSec := minAvgMax (workersArr.map (·.uptimeSec)),
    rss := minAvgMax (workersArr.map (·.rss)),
    heapUsed := minAvgMax (workersArr.map (·.heapUsed)) }

/-- The aggregation timeline: per window, ingest that window's samples
into the (never-cleared) map, then publish one snapshot. -/
def runWindows (cfgWorkers : Nat) (m : List (String × HbSample)) :
    List (List HbSample) → List HbSnapshot
  | [] => []
  | b :: bs =>
      let m' := b.foldl onWorkerHeartbeat m
      hbSnapshot cfgWorkers m' :: runWindows cfgWorkers m' bs

/-- A concrete sample for the counterexample. -/
def hbS1 : HbSample := ⟨"nodeA", 41, 0, 5, 10, 7⟩

/-- Counterexample to C7: one sample arrives in the first window and none
in the second; the claim predicts the second snapshot reports
`observed = 0` (distinct keys seen since the last window), but the map is
never cleared, so both snapshots report `observed = 1`. -/
theorem heartbeat_observed_counterexample :
    (runWindows 2 [] [[hbS1], []]).map (fun s => s.observedTotal) = [1, 1]
      ∧ ¬ ((runWindows 2 [] [[hbS1], []]).map (fun s => s.observedTotal)
            = [1, 0]) := by
  constructor
  · rfl
  · decide

theorem mapSet_keys_toFinset {α : Type} (k : String) (v : α)
    (m : List (String × α)) :
    ((mapSet k v m).map Prod.fst).toFinset
      = insert k ((m.map Prod.fst).toFinset) := by
  induction m with
  | nil => simp [mapSet]
  | cons hd tl ih =>
      by_cases h : hd.1 = k
      · simp [mapSet, h]
      · simp [mapSet, h, ih, Finset.Insert.comm]

theorem mapSet_keys_nodup {α : Type} (k : String) (v : α)
    (m : List (String × α)) (h : (m.map Prod.fst).Nodup) :
    ((mapSet k v m).map Prod.fst).Nodup := by
  induction m with
  | nil => simp [mapSet]
  | cons hd tl ih =>
      have h' : (hd.1 :: tl.map Prod.fst).Nodup := by simpa using h
      rcases List.nodup_cons.mp h' with ⟨hhd, htl⟩
      by_cases hk : hd.1 = k
      · subst hk
        have hres : (hd.1 :: tl.map Prod.fst).Nodup :=
          List.nodup_cons.mpr ⟨hhd, htl⟩
        simpa [mapSet] using hres
      · have hmem : ∀ a, a ∈ (mapSet k v tl).map Prod.fst ↔
            a = k ∨ a ∈ tl.map Prod.fst := by
          intro a
          constructor
          · intro ha
            have := List.mem_toFinset.mpr ha
            rw [mapSet_keys_toFinset] at this
            rcases Finset.mem_insert.mp this with h1 | h1
            · exact Or.inl h1
            · exact Or.inr (List.mem_toFinset.mp h1)
          · intro ha
            have : a ∈ insert k ((tl.map Prod.fst).toFinset) := by
              rcases ha with h1 | h1
              · exact Finset.mem_insert.mpr (Or.inl h1)
              · exact Finset.mem_insert.mpr (Or.inr (List.mem_toFinset.mpr h1))
            rw [← mapSet_keys_toFinset k v tl] at this
            exact List.mem_toFinset.mp this
        have hgoal : (hd.1 :: (mapSet k v tl).map Prod.fst).Nodup := by
          refine List.nodup_cons.mpr ⟨?_, ih htl⟩
          intro hcon
          rcases (hmem hd.1).mp hcon with h1 | h1
          · exact hk h1
          · exact hhd h1
        simpa [mapSet, hk] using hgoal

theorem foldl_heartbeat_keys (history : List HbSample) :
    ∀ m : List (String × HbSample),
      (((history.foldl onWorkerHeartbeat m).map Prod.fst).toFinset
          = (m.map Prod.fst).toFinset ∪ (history.map hbKey).toFinset)
        ∧ ((m.map Prod.fst).Nodup →
            ((history.foldl onWorkerHeartbeat m).map Prod.fst).Nodup) := by
  induction history with
  | nil => intro m; simp
  | cons e hs ih =>
      intro m
      rcases ih (onWorkerHeartbeat m e) with ⟨hfin, hnd⟩
      constructor
      · rw [List.foldl_cons, hfin, onWorkerHeartbeat, mapSet_keys_toFinset]
        simp [Finset.insert_union, Finset.union_insert]
      · intro h
        rw [List.foldl_cons]
        exact hnd (mapSet_keys_nodup _ _ _ h)

/-- C7 (amended): a snapshot taken after any history of ingested samples
reports `observed` equal to the number of distinct `(nodeId, pid)` keys
among all samples seen since the aggregator started (the map is never
cleared between windows); `expected` is `max 1 (configured workers)`; and
one snapshot is produced per window regardless of the two counts
differing. -/
theorem heartbeat_observed_amended (cfgWorkers : Nat)
    (history : List HbSample) :
    (hbSnapshot cfgWorkers (history.foldl onWorkerHeartbeat [])).observedTotal
        = (history.map hbKey).dedup.length
      ∧ (hbSnapshot cfgWorkers
            (history.foldl onWorkerHeartbeat [])).expectedTotal
          = Nat.max 1 cfgWorkers
      ∧ ∀ batches : List (List HbSample),
          (runWindows cfgWorkers [] batches).length = batches.length := by
  refine ⟨?_, rfl, ?_⟩
  · rcases foldl_heartbeat_keys history [] with ⟨hfin, hnd⟩
    have hnodup := hnd (by simp)
    have hcard :
        ((history.foldl onWorkerHeartbeat []).map Prod.fst).toFinset.card
          = (history.map hbKey).toFinset.card := by
      rw [hfin]; simp
    rw [List.toFinset_card_of_nodup hnodup, List.card_toFinset] at hcard
    simpa [hbSnapshot] using hcard
  · intro batches
    suffices hgen : ∀ (m : List (String × HbSample))
        (bs : List (List HbSample)),
        (runWindows cfgWorkers m bs).length = bs.length from hgen [] batches
    intro m bs
    induction bs generalizing m with
    | nil => rfl
    | cons b bs ih => simp [runWindows, ih]

end Zapi
